import Mathlib

/-!
Verification of the `fermipy/catalog.py` catalog-normalization module.

This file is a shallow embedding of the module's data model and operations:

* the spectral Parameter Registry accessor `get_function_par_names`
  (an external collaborator of this module, modelled from the specification);
* the per-release `_fill_params` static methods, embedded per-row (the
  source performs boolean-masked bulk assignments in which, for a given
  row, exactly the block whose `SpectrumType` literal equals that row's
  `SpectrumType` performs writes, so the per-row translation below uses
  an if-chain over the same string comparisons in the same order);
* the base `Catalog.__init__` extension-flag derivation and the
  4FGL-family post-processing that recomputes it;
* the table utilities `join_tables` (over a small columnar-table model
  whose left join reproduces the key-sorted output order of the
  underlying astropy join), together with a heap-based version used to
  reason about mutation of caller-owned tables;
* the `Catalog.create` format dispatcher.

Floating-point cells are modelled as elements of an arbitrary field `R`,
and the two transcendental operations the source applies to them
(`np.exp` and the float `**`) are passed in as explicit functions, so
that every definition stays executable; the theorems instantiate `R`
with `ℝ`, `exp` with `Real.exp` and `pow` with real exponentiation,
while concrete witnesses may instantiate `R` with `ℚ` to let the kernel
evaluate them.
-/

namespace FermipyCatalog

/-! ## Parameter Registry (external collaborator) -/

/-- Modelled from the spec: the Parameter Registry accessor
`get_function_par_names` lives in `fermipy.model_utils`, which is not part
of the sources under verification.  Per the spec it returns, for each
spectral-model family name, the canonical ordered list of parameter names
for that family (PowerLaw: Prefactor, Index, Scale; LogParabola: norm,
alpha, beta, Eb; PLSuperExpCutoff: Prefactor, Index1, Scale, Cutoff,
Index2; PLSuperExpCutoff2: Prefactor, Index1, Scale, Expfactor, Index2;
PLSuperExpCutoff4: Prefactor, IndexS, Scale, ExpfactorS, Index2), in a
stable deterministic order.  These orders also appear verbatim as code
comments above the corresponding fill blocks in `catalog.py`. -/
def get_function_par_names : String → List String
  | "PowerLaw" => ["Prefactor", "Index", "Scale"]
  | "LogParabola" => ["norm", "alpha", "beta", "Eb"]
  | "PLSuperExpCutoff" => ["Prefactor", "Index1", "Scale", "Cutoff", "Index2"]
  | "PLSuperExpCutoff2" => ["Prefactor", "Index1", "Scale", "Expfactor", "Index2"]
  | "PLSuperExpCutoff4" => ["Prefactor", "IndexS", "Scale", "ExpfactorS", "Index2"]
  | _ => []

/-- A registry ordering: any function of the Parameter Registry interface
shape, mapping a family name to an ordered parameter list. -/
abbrev Registry := String → List String

/-- `idxs = {k: i for i, k in enumerate(reg(fam))}; idxs[p]`: the slot
index of parameter `p` in the registry ordering for family `fam`
(parameter names within a family are distinct, so the dict position and
the first index coincide). -/
def parSlot (reg : Registry) (fam p : String) : Nat :=
  (reg fam).findIdx (fun q => q == p)

/-! ## Rows and parameter vectors -/

/-- The 10-slot `param_values` vector of one row; `none` models NaN
(the vector is initialized as `np.nan * np.ones((len(tab), 10))` and NaN
survives exactly in the slots never assigned). -/
abbrev ParamVec (R : Type) := List (Option R)

/-- `np.nan * np.ones(10)`: all ten slots NaN. -/
def nanVec (R : Type) : ParamVec R := List.replicate 10 none

/-- One source row, holding the `SpectrumType` string and every numeric
column any of the `_fill_params` variants reads. -/
structure SrcRow (R : Type) [Zero R] where
  SpectrumType : String
  Flux_Density : R := 0
  Spectral_Index : R := 0
  Pivot_Energy : R := 0
  Cutoff : R := 0
  Exp_Index : R := 0
  beta : R := 0
  PL_Flux_Density : R := 0
  PL_Index : R := 0
  LP_Flux_Density : R := 0
  LP_Index : R := 0
  LP_beta : R := 0
  PLEC_Flux_Density : R := 0
  PLEC_Index : R := 0
  PLEC_Expfactor : R := 0
  PLEC_Exp_Index : R := 0
  PLEC_IndexS : R := 0
  PLEC_ExpfactorS : R := 0

/-! ## The `_fill_params` variants

Each definition is the per-row form of the corresponding static method.
The six registry-consulting variants take the registry accessor as an
explicit argument (the shallow embedding of the imported
`get_function_par_names`); `Catalog2FHL._fill_params` does not consult
the registry, so its embedding takes none. -/

variable {R : Type}

/-- `Catalog2FHL._fill_params` (catalog.py lines 275-285): only the
PowerLaw family is handled, and the three values are written at the
literal slot indices 0, 1 and 2. -/
def Catalog2FHL_fill [Field R] (row : SrcRow R) : ParamVec R :=
  if row.SpectrumType = "PowerLaw" then
    (((nanVec R).set 0 (some row.Flux_Density)).set
       1 (some (-1 * row.Spectral_Index))).set
       2 (some row.Pivot_Energy)
  else nanVec R

/-- `Catalog3FGL._fill_params` (catalog.py lines 354-391): PowerLaw,
PLSuperExpCutoff and LogParabola, slots chosen through
`get_function_par_names` (the `reg` argument).  `exp` models `np.exp`
and `pow` the float `**`. -/
def Catalog3FGL_fill [Field R] (exp : R → R) (pow : R → R → R)
    (reg : Registry) (row : SrcRow R) : ParamVec R :=
  if row.SpectrumType = "PowerLaw" then
    (((nanVec R).set (parSlot reg "PowerLaw" "Prefactor") (some row.Flux_Density)).set
       (parSlot reg "PowerLaw" "Index") (some (-1 * row.Spectral_Index))).set
       (parSlot reg "PowerLaw" "Scale") (some row.Pivot_Energy)
  else if row.SpectrumType = "PLSuperExpCutoff" then
    (((((nanVec R).set (parSlot reg "PLSuperExpCutoff" "Prefactor")
         (some (row.Flux_Density *
            exp (pow (row.Pivot_Energy / row.Cutoff) row.Exp_Index)))).set
       (parSlot reg "PLSuperExpCutoff" "Index1") (some (-1 * row.Spectral_Index))).set
       (parSlot reg "PLSuperExpCutoff" "Scale") (some row.Pivot_Energy)).set
       (parSlot reg "PLSuperExpCutoff" "Cutoff") (some row.Cutoff)).set
       (parSlot reg "PLSuperExpCutoff" "Index2") (some row.Exp_Index)
  else if row.SpectrumType = "LogParabola" then
    ((((nanVec R).set (parSlot reg "LogParabola" "norm") (some row.Flux_Density)).set
       (parSlot reg "LogParabola" "alpha") (some row.Spectral_Index)).set
       (parSlot reg "LogParabola" "beta") (some row.beta)).set
       (parSlot reg "LogParabola" "Eb") (some row.Pivot_Energy)
  else nanVec R

/-- `Catalog4FGL._fill_params` (catalog.py lines 497-533): PowerLaw,
PLSuperExpCutoff2 and LogParabola, slots chosen through the registry. -/
def Catalog4FGL_fill [Field R] (exp : R → R) (pow : R → R → R)
    (reg : Registry) (row : SrcRow R) : ParamVec R :=
  if row.SpectrumType = "PowerLaw" then
    (((nanVec R).set (parSlot reg "PowerLaw" "Prefactor") (some row.PL_Flux_Density)).set
       (parSlot reg "PowerLaw" "Index") (some (-1 * row.PL_Index))).set
       (parSlot reg "PowerLaw" "Scale") (some row.Pivot_Energy)
  else if row.SpectrumType = "PLSuperExpCutoff2" then
    (((((nanVec R).set (parSlot reg "PLSuperExpCutoff2" "Prefactor")
         (some (row.PLEC_Flux_Density *
            exp (row.PLEC_Expfactor *
              pow row.Pivot_Energy row.PLEC_Exp_Index)))).set
       (parSlot reg "PLSuperExpCutoff2" "Index1") (some (-1 * row.PLEC_Index))).set
       (parSlot reg "PLSuperExpCutoff2" "Scale") (some row.Pivot_Energy)).set
       (parSlot reg "PLSuperExpCutoff2" "Expfactor") (some row.PLEC_Expfactor)).set
       (parSlot reg "PLSuperExpCutoff2" "Index2") (some row.PLEC_Exp_Index)
  else if row.SpectrumType = "LogParabola" then
    ((((nanVec R).set (parSlot reg "LogParabola" "norm") (some row.LP_Flux_Density)).set
       (parSlot reg "LogParabola" "alpha") (some row.LP_Index)).set
       (parSlot reg "LogParabola" "beta") (some row.LP_beta)).set
       (parSlot reg "LogParabola" "Eb") (some row.Pivot_Energy)
  else nanVec R

/-- `CatalogFL8Y._fill_params` (catalog.py lines 590-626): as for 4FGL but
the PowerLaw and PLSuperExpCutoff2 normalization comes from the
`Flux_Density` column. -/
def CatalogFL8Y_fill [Field R] (exp : R → R) (pow : R → R → R)
    (reg : Registry) (row : SrcRow R) : ParamVec R :=
  if row.SpectrumType = "PowerLaw" then
    (((nanVec R).set (parSlot reg "PowerLaw" "Prefactor") (some row.Flux_Density)).set
       (parSlot reg "PowerLaw" "Index") (some (-1 * row.PL_Index))).set
       (parSlot reg "PowerLaw" "Scale") (some row.Pivot_Energy)
  else if row.SpectrumType = "PLSuperExpCutoff2" then
    (((((nanVec R).set (parSlot reg "PLSuperExpCutoff2" "Prefactor")
         (some (row.Flux_Density *
            exp (row.PLEC_Expfactor *
              pow row.Pivot_Energy row.PLEC_Exp_Index)))).set
       (parSlot reg "PLSuperExpCutoff2" "Index1") (some (-1 * row.PLEC_Index))).set
       (parSlot reg "PLSuperExpCutoff2" "Scale") (some row.Pivot_Energy)).set
       (parSlot reg "PLSuperExpCutoff2" "Expfactor") (some row.PLEC_Expfactor)).set
       (parSlot reg "PLSuperExpCutoff2" "Index2") (some row.PLEC_Exp_Index)
  else if row.SpectrumType = "LogParabola" then
    ((((nanVec R).set (parSlot reg "LogParabola" "norm") (some row.Flux_Density)).set
       (parSlot reg "LogParabola" "alpha") (some row.LP_Index)).set
       (parSlot reg "LogParabola" "beta") (some row.LP_beta)).set
       (parSlot reg "LogParabola" "Eb") (some row.Pivot_Energy)
  else nanVec R

/-- `Catalog4FGLDR2._fill_params` (catalog.py lines 690-726): textually
identical to the 4FGL variant. -/
def Catalog4FGLDR2_fill [Field R] (exp : R → R) (pow : R → R → R)
    (reg : Registry) (row : SrcRow R) : ParamVec R :=
  if row.SpectrumType = "PowerLaw" then
    (((nanVec R).set (parSlot reg "PowerLaw" "Prefactor") (some row.PL_Flux_Density)).set
       (parSlot reg "PowerLaw" "Index") (some (-1 * row.PL_Index))).set
       (parSlot reg "PowerLaw" "Scale") (some row.Pivot_Energy)
  else if row.SpectrumType = "PLSuperExpCutoff2" then
    (((((nanVec R).set (parSlot reg "PLSuperExpCutoff2" "Prefactor")
         (some (row.PLEC_Flux_Density *
            exp (row.PLEC_Expfactor *
              pow row.Pivot_Energy row.PLEC_Exp_Index)))).set
       (parSlot reg "PLSuperExpCutoff2" "Index1") (some (-1 * row.PLEC_Index))).set
       (parSlot reg "PLSuperExpCutoff2" "Scale") (some row.Pivot_Energy)).set
       (parSlot reg "PLSuperExpCutoff2" "Expfactor") (some row.PLEC_Expfactor)).set
       (parSlot reg "PLSuperExpCutoff2" "Index2") (some row.PLEC_Exp_Index)
  else if row.SpectrumType = "LogParabola" then
    ((((nanVec R).set (parSlot reg "LogParabola" "norm") (some row.LP_Flux_Density)).set
       (parSlot reg "LogParabola" "alpha") (some row.LP_Index)).set
       (parSlot reg "LogParabola" "beta") (some row.LP_beta)).set
       (parSlot reg "LogParabola" "Eb") (some row.Pivot_Energy)
  else nanVec R

/-- `Catalog4FGLDR3._fill_params` (catalog.py lines 790-823): PowerLaw,
PLSuperExpCutoff4 (no exponential pre-multiplication of the prefactor)
and LogParabola. -/
def Catalog4FGLDR3_fill [Field R] (reg : Registry) (row : SrcRow R) : ParamVec R :=
  if row.SpectrumType = "PowerLaw" then
    (((nanVec R).set (parSlot reg "PowerLaw" "Prefactor") (some row.PL_Flux_Density)).set
       (parSlot reg "PowerLaw" "Index") (some (-1 * row.PL_Index))).set
       (parSlot reg "PowerLaw" "Scale") (some row.Pivot_Energy)
  else if row.SpectrumType = "PLSuperExpCutoff4" then
    (((((nanVec R).set (parSlot reg "PLSuperExpCutoff4" "Prefactor")
         (some row.PLEC_Flux_Density)).set
       (parSlot reg "PLSuperExpCutoff4" "IndexS") (some (-1 * row.PLEC_IndexS))).set
       (parSlot reg "PLSuperExpCutoff4" "Scale") (some row.Pivot_Energy)).set
       (parSlot reg "PLSuperExpCutoff4" "ExpfactorS") (some row.PLEC_ExpfactorS)).set
       (parSlot reg "PLSuperExpCutoff4" "Index2") (some row.PLEC_Exp_Index)
  else if row.SpectrumType = "LogParabola" then
    ((((nanVec R).set (parSlot reg "LogParabola" "norm") (some row.LP_Flux_Density)).set
       (parSlot reg "LogParabola" "alpha") (some row.LP_Index)).set
       (parSlot reg "LogParabola" "beta") (some row.LP_beta)).set
       (parSlot reg "LogParabola" "Eb") (some row.Pivot_Energy)
  else nanVec R

/-- `Catalog4FGLDR4._fill_params` (catalog.py lines 889-922): textually
identical to the DR3 variant. -/
def Catalog4FGLDR4_fill [Field R] (reg : Registry) (row : SrcRow R) : ParamVec R :=
  if row.SpectrumType = "PowerLaw" then
    (((nanVec R).set (parSlot reg "PowerLaw" "Prefactor") (some row.PL_Flux_Density)).set
       (parSlot reg "PowerLaw" "Index") (some (-1 * row.PL_Index))).set
       (parSlot reg "PowerLaw" "Scale") (some row.Pivot_Energy)
  else if row.SpectrumType = "PLSuperExpCutoff4" then
    (((((nanVec R).set (parSlot reg "PLSuperExpCutoff4" "Prefactor")
         (some row.PLEC_Flux_Density)).set
       (parSlot reg "PLSuperExpCutoff4" "IndexS") (some (-1 * row.PLEC_IndexS))).set
       (parSlot reg "PLSuperExpCutoff4" "Scale") (some row.Pivot_Energy)).set
       (parSlot reg "PLSuperExpCutoff4" "ExpfactorS") (some row.PLEC_ExpfactorS)).set
       (parSlot reg "PLSuperExpCutoff4" "Index2") (some row.PLEC_Exp_Index)
  else if row.SpectrumType = "LogParabola" then
    ((((nanVec R).set (parSlot reg "LogParabola" "norm") (some row.LP_Flux_Density)).set
       (parSlot reg "LogParabola" "alpha") (some row.LP_Index)).set
       (parSlot reg "LogParabola" "beta") (some row.LP_beta)).set
       (parSlot reg "LogParabola" "Eb") (some row.Pivot_Energy)
  else nanVec R

/-- The classes of `catalog.py` that define a `_fill_params` static
method. -/
inductive FillKind
  | C2FHL | C3FGL | C4FGL | CFL8Y | C4FGLDR2 | C4FGLDR3 | C4FGLDR4
deriving DecidableEq

/-- Dispatch to the release's `_fill_params`; the registry-consulting
variants receive the actual `get_function_par_names`, as in the source. -/
def fill_params [Field R] (exp : R → R) (pow : R → R → R) :
    FillKind → SrcRow R → ParamVec R
  | .C2FHL => Catalog2FHL_fill
  | .C3FGL => Catalog3FGL_fill exp pow get_function_par_names
  | .C4FGL => Catalog4FGL_fill exp pow get_function_par_names
  | .CFL8Y => CatalogFL8Y_fill exp pow get_function_par_names
  | .C4FGLDR2 => Catalog4FGLDR2_fill exp pow get_function_par_names
  | .C4FGLDR3 => Catalog4FGLDR3_fill get_function_par_names
  | .C4FGLDR4 => Catalog4FGLDR4_fill get_function_par_names

/-- The spectral-index column each release's PowerLaw block negates:
`Spectral_Index` for 2FHL and 3FGL, `PL_Index` for the later releases. -/
def powerLawIndexCol [Zero R] : FillKind → SrcRow R → R
  | .C2FHL, row => row.Spectral_Index
  | .C3FGL, row => row.Spectral_Index
  | _, row => row.PL_Index

/-- The `SpectrumType` strings whose rows a release's `_fill_params`
writes to (every other row keeps the all-NaN initialization). -/
def handledTypes : FillKind → List String
  | .C2FHL => ["PowerLaw"]
  | .C3FGL => ["PowerLaw", "PLSuperExpCutoff", "LogParabola"]
  | .C4FGL => ["PowerLaw", "PLSuperExpCutoff2", "LogParabola"]
  | .CFL8Y => ["PowerLaw", "PLSuperExpCutoff2", "LogParabola"]
  | .C4FGLDR2 => ["PowerLaw", "PLSuperExpCutoff2", "LogParabola"]
  | .C4FGLDR3 => ["PowerLaw", "PLSuperExpCutoff4", "LogParabola"]
  | .C4FGLDR4 => ["PowerLaw", "PLSuperExpCutoff4", "LogParabola"]

/-- The specification's slot-choice rule, written from the spec's words:
starting from the all-NaN vector, each (parameter name, value) assignment
is written into the slot whose index is the position of that name in the
registry ordering for the family ("using that family's canonical
parameter ordering (fetched from the Registry) to choose slot indices"). -/
def regVec (reg : Registry) (fam : String) (assigns : List (String × R)) : ParamVec R :=
  assigns.foldl (fun v pv => v.set (parSlot reg fam pv.1) (some pv.2)) (nanVec R)

/-! ## Base Catalog Entity: the extension flag (`Catalog.__init__`) -/

/-- The spatial-metadata cells of one row as seen by `Catalog.__init__`
after it has ensured both columns exist (a column created by the
constructor holds empty strings). -/
structure SpatialRow where
  Spatial_Filename : String := ""
  Spatial_Function : String := ""
deriving DecidableEq, Inhabited

/-- `Catalog.__init__` lines 123-126: the mask
`m = (Spatial_Filename != '') | (Spatial_Function != '')` is built, the
`extended` column is set to False everywhere and then to True on `m`;
per row this is the disjunction below. -/
def Catalog_init_extended (r : SpatialRow) : Bool :=
  (r.Spatial_Filename != "") || (r.Spatial_Function != "")

/-- `Catalog.__init__` applied column-wise: the `extended` column. -/
def Catalog_init_extendedCol (rows : List SpatialRow) : List Bool :=
  rows.map Catalog_init_extended

/-! ## 4FGL-family post-processing of the extension flag -/

/-- Python `str.strip()` on catalog name cells (whitespace trimming on
both ends). -/
def pyStrip (s : String) : String := s.trim

/-- One joined row as seen by the 4FGL-family constructors after the
base constructor ran. -/
structure Row4 where
  Extended_Source_Name : String := ""
  Spatial_Filename : String := ""
  Spatial_Function : String := ""
deriving DecidableEq

/-- The five 4FGL-family normalizer classes that recompute the extension
flag after the base constructor. -/
inductive Kind4
  | C4FGL | CFL8Y | C4FGLDR2 | C4FGLDR3 | C4FGLDR4
deriving DecidableEq

/-- The post-processing block each 4FGL-family constructor runs
(catalog.py lines 474-480 for `Catalog4FGL`, 572-578 for `CatalogFL8Y`,
668-674 for `Catalog4FGLDR2`, 768-774 for `Catalog4FGLDR3`, 867-873 for
`Catalog4FGLDR4`): `excol[i] = len(Extended_Source_Name.strip()) > 0`,
then both `table['extended']` and `table['Extended']` are assigned
`excol`, discarding the value `baseExtended` the base constructor left
in `extended`.  The result pair is (`extended`, `Extended`). -/
def fourFGL_post (k : Kind4) (_baseExtended : Bool) (r : Row4) : Bool × Bool :=
  match k with
  | .C4FGL =>
      let excol := decide ((pyStrip r.Extended_Source_Name).length > 0)
      (excol, excol)
  | .CFL8Y =>
      let excol := decide ((pyStrip r.Extended_Source_Name).length > 0)
      (excol, excol)
  | .C4FGLDR2 =>
      let excol := decide ((pyStrip r.Extended_Source_Name).length > 0)
      (excol, excol)
  | .C4FGLDR3 =>
      let excol := decide ((pyStrip r.Extended_Source_Name).length > 0)
      (excol, excol)
  | .C4FGLDR4 =>
      let excol := decide ((pyStrip r.Extended_Source_Name).length > 0)
      (excol, excol)

/-- The composed pipeline for the extension flag of a 4FGL-family row:
the base constructor's filename/function rule computes the initial
`extended` value, which the post-processing block then replaces. -/
def fourFGL_extended (k : Kind4) (r : Row4) : Bool × Bool :=
  fourFGL_post k
    (Catalog_init_extended
      { Spatial_Filename := r.Spatial_Filename,
        Spatial_Function := r.Spatial_Function }) r

/-! ## The format dispatcher `Catalog.create` -/

/-- What `Catalog.create` reads from a catalog file before dispatching:
the `CDS-NAME` and `VERSION` header tags of HDU 1 (absent tags leave the
corresponding local variable as the empty string) and the column names
of the primary table. -/
structure FitsFile where
  cdsName : Option String := none
  version : Option String := none
  columns : List String := []
deriving DecidableEq

/-- The normalizer classes `Catalog.create` can construct. -/
inductive Sel
  | C3FGL | C2FHL | CFL8Y | C4FGL | C4FGLDR2 | C4FGLDR3 | C4FGLDR4 | C4FGLP | CFPY
deriving DecidableEq

/-- `os.path.splitext(name)[1]`: the extension of the final path
component, i.e. the suffix starting at its last dot, except that a
basename consisting only of leading dots before that dot has no
extension. -/
def pySplitextExt (s : String) : String :=
  let revBase := s.data.reverse.takeWhile (fun c => c ≠ '/')
  let afterRev := revBase.takeWhile (fun c => c ≠ '.')
  if afterRev.length < revBase.length ∧
      (revBase.drop (afterRev.length + 1)).any (fun c => c ≠ '.') then
    String.mk ('.' :: afterRev.reverse)
  else ""

/-- Bool-valued infix test on character lists (helper for Python's
`in` on strings). -/
def listInfix (pat : List Char) : List Char → Bool
  | [] => pat.isEmpty
  | c :: rest => pat.isPrefixOf (c :: rest) || listInfix pat rest

/-- Python `pat in s` for strings. -/
def strContains (s pat : String) : Bool := listInfix pat.data s.data

/-- 4FGL schema generation v17-v22 (8-year catalog). -/
def gen4FGLv1 : List String := ["v17", "v18", "v19", "v20", "v21", "v22"]

/-- 4FGL schema generation v23-v27 (DR2). -/
def gen4FGLv2 : List String := ["v23", "v24", "v25", "v26", "v27"]

/-- 4FGL schema generation v28-v31 (DR3). -/
def gen4FGLv3 : List String := ["v28", "v29", "v30", "v31"]

/-- 4FGL schema generation v32-v35 (DR4). -/
def gen4FGLv4 : List String := ["v32", "v33", "v34", "v35"]

/-- `Catalog.create` (catalog.py lines 147-212).  A `.fits`/`.fit`
argument dispatches on the file's `CDS-NAME` tag, `VERSION` tag, column
set and filename; any other argument is treated as a release name
token.  `Except.error` models the raised exception (no entity is
constructed); `Except.ok` carries the selected normalizer class.  The
filesystem resolution of lines 153-155 (prepending the bundled data
directory when the path is not a file) is not modelled: it affects only
where the bytes are read from, not the header/column dispatch, and the
`gll_psch_v08` filename marker survives the prepending.  In the
`4FGL` branch, a recognized version whose signature column is missing
returns from none of the nested `if` statements, so control falls
through to the `NickName` check of lines 192-195. -/
def Catalog_create (arg : String) (file : FitsFile) : Except String Sel :=
  let extname := pySplitextExt arg
  if extname = ".fits" ∨ extname = ".fit" then
    let fitsfile := arg
    let name := file.cdsName.getD ""
    let catalog_file_version := file.version.getD ""
    let fallback : Except String Sel :=
      if "NickName" ∈ file.columns then .ok .C4FGLP else .ok .CFPY
    if name = "3FGL" then .ok .C3FGL
    else if name = "FL8Y" then .ok .CFL8Y
    else if name = "4FGL" then
      if catalog_file_version ∈ gen4FGLv1 then
        (if "PLEC_Index" ∈ file.columns then .ok .C4FGL else fallback)
      else if catalog_file_version ∈ gen4FGLv2 then
        (if "PLEC_Index" ∈ file.columns then .ok .C4FGLDR2 else fallback)
      else if catalog_file_version ∈ gen4FGLv3 then
        (if "PLEC_IndexS" ∈ file.columns then .ok .C4FGLDR3 else fallback)
      else if catalog_file_version ∈ gen4FGLv4 then
        (if "PLEC_IndexS" ∈ file.columns then .ok .C4FGLDR4 else fallback)
      else .error "Error - 4FGL catalog fits file version not recognised."
    else if strContains fitsfile "gll_psch_v08" then .ok .C2FHL
    else fallback
  else if arg = "3FGL" then .ok .C3FGL
  else if arg = "2FHL" then .ok .C2FHL
  else if arg = "FL8Y" then .ok .CFL8Y
  else if arg = "4FGL" then .ok .C4FGL
  else if arg = "4FGL-DR2" then .ok .C4FGLDR2
  else if arg = "4FGL-DR3" then .ok .C4FGLDR3
  else if arg = "4FGL-DR4" then .ok .C4FGLDR4
  else .error ("Unrecognized catalog " ++ arg ++ ".")

/-! ## Columnar-table model and `join_tables`

A minimal model of the astropy tables this module manipulates: a list of
(name, dtype-kind) column descriptors plus rows of cells.  The cell
kinds mirror the dtype kinds `join_tables` distinguishes for fill values
(`S`/`U` strings, `i` integers, everything else float).  `Cell.masked`
models a masked cell of the intermediate (unfilled) join output. -/

/-- Dtype kind of a column: string (`S`/`U`), integer (`i`), float. -/
inductive CKind
  | str | int | flt
deriving DecidableEq

/-- One table cell. -/
inductive Cell (R : Type)
  | str (s : String)
  | int (n : Int)
  | flt (x : Option R)
  | masked
deriving DecidableEq

/-- A columnar table: column descriptors and rows (each row holds one
cell per column). -/
structure ATable (R : Type) where
  cols : List (String × CKind)
  rows : List (List (Cell R))
deriving DecidableEq

/-- `table.colnames`. -/
def ATable.colnames (t : ATable R) : List String := t.cols.map (fun p => p.1)

/-- Index of a named column (the length of `cols` when absent). -/
def colIdx (t : ATable R) (name : String) : Nat :=
  t.cols.findIdx (fun p => p.1 == name)

/-- The fill value `join_tables` installs per dtype kind (lines 65-71):
empty string for text, 0 for integers, NaN otherwise. -/
def fillOfKind (k : CKind) : Cell R :=
  match k with
  | .str => .str ""
  | .int => .int 0
  | .flt => .flt none

/-- Equality of join-key cells.  The joins of this module key on string
columns (`Source_Name` / `Extended_Source_Name`); float keys are never
used (and NaN comparisons would be false anyway), so they compare
unequal here, as do masked cells. -/
def cellEqb : Cell R → Cell R → Bool
  | .str a, .str b => a == b
  | .int a, .int b => a == b
  | _, _ => false

/-- Lexicographic comparison of character lists (the sort order of the
string keys). -/
def charListLeb : List Char → List Char → Bool
  | [], _ => true
  | _ :: _, [] => false
  | a :: as, b :: bs => if a = b then charListLeb as bs else decide (a < b)

/-- Lexicographic string comparison. -/
def strLeb (a b : String) : Bool := charListLeb a.data b.data

/-- Sort order on join-key cells (lexicographic order on the string
keys this module uses; other combinations are irrelevant to the
claims). -/
def cellLeb : Cell R → Cell R → Bool
  | .str a, .str b => strLeb a b
  | .int a, .int b => decide (a ≤ b)
  | _, _ => true

/-- Insert into a sorted list (helper of the sort the underlying join
performs on the key column). -/
def insertLe (le : α → α → Bool) (a : α) : List α → List α
  | [] => [a]
  | b :: bs => if le a b then a :: b :: bs else b :: insertLe le a bs

/-- Sort by a Bool-valued comparison (the underlying astropy join
orders its output by the values of the key column). -/
def insSort (le : α → α → Bool) : List α → List α
  | [] => []
  | a :: as => insertLe le a (insSort le as)

/-- `astropy.table.join(left, right, keys=key, join_type='left')`:
every left row is paired with each right row whose key cell matches;
left rows without a match get masked cells in the right-sourced
columns; the key column keeps its position among the left columns and
the output rows are ordered by the key values (astropy's join sorts its
output by the key; this module therefore re-sorts by `Source_Name`
after every `join_tables` call). -/
def leftJoin (left right : ATable R) (key : String) : ATable R :=
  let li := colIdx left key
  let ri := colIdx right key
  let sortedLeft :=
    insSort (fun r1 r2 => cellLeb (r1.getD li .masked) (r2.getD li .masked)) left.rows
  { cols := left.cols ++ right.cols.eraseIdx ri,
    rows := sortedLeft.flatMap (fun lrow =>
      let ms := right.rows.filter
        (fun rr => cellEqb (rr.getD ri .masked) (lrow.getD li .masked))
      if ms.isEmpty then
        [lrow ++ (right.cols.eraseIdx ri).map (fun _ => (Cell.masked : Cell R))]
      else ms.map (fun rr => lrow ++ rr.eraseIdx ri)) }

/-- `right[key_right].name = key_left`: rename a column in place. -/
def renameCol (t : ATable R) (old new : String) : ATable R :=
  { t with cols := t.cols.map (fun p => if p.1 == old then (new, p.2) else p) }

/-- `right[cols_right]`: select the named columns.  Astropy raises
`KeyError` when a requested column does not exist, modelled as `none`. -/
def tableSelect (t : ATable R) (names : List String) : Option (ATable R) :=
  if names.all (fun n => t.colnames.contains n) then
    some { cols := names.filterMap (fun n => t.cols.find? (fun p => p.1 == n)),
           rows := t.rows.map (fun r => names.filterMap (fun n => r.get? (colIdx t n))) }
  else none

/-- The fill loop of `join_tables` (lines 65-71) followed by
`out.filled()`: replace each masked cell by its column's fill value. -/
def fillTable (t : ATable R) : ATable R :=
  { t with rows := t.rows.map (fun r =>
      (r.zip t.cols).map (fun pc =>
        match pc.1 with
        | Cell.masked => fillOfKind pc.2.2
        | c => c)) }

/-- `join_tables` (catalog.py lines 26-73).  `right.copy()` has value
semantics here (the heap-based variant below accounts for the caller's
storage); the steps follow the source order: default/filter
`cols_right` against the (pre-rename) column names, rename the key
column of the copy when the key names differ, append the join key to
`cols_right` when missing, select, left-join, set fill values and
return the filled table. -/
def join_tables (left right : ATable R) (key_left key_right : String)
    (colsRightArg : Option (List String)) : Option (ATable R) :=
  let cols_right := match colsRightArg with
    | none => right.colnames
    | some cs => cs.filter (fun c => right.colnames.contains c)
  let right1 := if key_left ≠ key_right then renameCol right key_right key_left else right
  let cols_right2 := if cols_right.contains key_left then cols_right
    else cols_right ++ [key_left]
  (tableSelect right1 cols_right2).map (fun sel => fillTable (leftJoin left sel key_left))

/-! ## Heap-based `join_tables` (for the mutation/frame property)

Tables live at numbered references in a heap; `right.copy()` allocates a
fresh reference and the subsequent in-place column rename targets only
that fresh reference, so the caller-owned tables are untouched. -/

/-- A heap of tables addressed by references. -/
abbrev Heap (R : Type) := List (Nat × ATable R)

/-- Look a reference up in the heap. -/
def hget (h : Heap R) (r : Nat) : Option (ATable R) :=
  (h.find? (fun p => p.1 == r)).map (fun p => p.2)

/-- Overwrite the table stored at a reference. -/
def hset (h : Heap R) (r : Nat) (t : ATable R) : Heap R :=
  h.map (fun p => if p.1 == r then (r, t) else p)

/-- A reference fresh for the heap (strictly above every allocated
reference). -/
def hfresh (h : Heap R) : Nat :=
  (h.map (fun p => p.1)).foldr max 0 + 1

/-- `join_tables` with explicit storage: the caller passes references to
its `left` and `right` tables.  `right = right.copy()` allocates a fresh
cell holding a copy; `right[key_right].name = key_left` mutates that
fresh cell only.  Returns the final heap and the joined table (`none`
when a reference is dangling or the column selection fails). -/
def join_tables_st (h : Heap R) (lref rref : Nat) (key_left key_right : String)
    (colsRightArg : Option (List String)) : Heap R × Option (ATable R) :=
  match hget h lref, hget h rref with
  | some left, some right =>
    let c := hfresh h
    let h1 : Heap R := (c, right) :: h
    let cols_right := match colsRightArg with
      | none => right.colnames
      | some cs => cs.filter (fun x => right.colnames.contains x)
    let h2 := if key_left ≠ key_right then hset h1 c (renameCol right key_right key_left) else h1
    let rightc := (hget h2 c).getD right
    let cols_right2 := if cols_right.contains key_left then cols_right
      else cols_right ++ [key_left]
    (h2, (tableSelect rightc cols_right2).map (fun sel => fillTable (leftJoin left sel key_left)))
  | _, _ => (h, none)

/-! ## Concrete inputs used by witnesses and counterexamples -/

/-- A registry ordering that permutes the canonical PowerLaw order
(used to test whether a fill routine actually tracks the ordering the
Registry returns, or writes to fixed literal slots). -/
def permPLReg : Registry := fun fam =>
  if fam = "PowerLaw" then ["Scale", "Index", "Prefactor"] else get_function_par_names fam

/-- A concrete PowerLaw row (rational cells so the kernel can evaluate). -/
def C1rowQ : SrcRow ℚ :=
  { SpectrumType := "PowerLaw", Flux_Density := 5, Spectral_Index := 3, Pivot_Energy := 7 }

/-- A concrete PowerLaw row over ℝ. -/
def C1rowW : SrcRow ℝ :=
  { SpectrumType := "PowerLaw", Flux_Density := 5, Spectral_Index := 3, Pivot_Energy := 7 }

/-- The PLSuperExpCutoff2 scenario row of the spec: flux-density 1.0e-12,
expfactor 0.01, pivot 1000, exp_index 1.5, index 2.0. -/
def C3row : SrcRow ℝ :=
  { SpectrumType := "PLSuperExpCutoff2", PLEC_Flux_Density := 1.0e-12,
    PLEC_Expfactor := 0.01, Pivot_Energy := 1000, PLEC_Exp_Index := 1.5,
    PLEC_Index := 2.0 }

/-- A concrete PowerLaw row over ℝ with spectral index 2. -/
def C4rowPL : SrcRow ℝ := { SpectrumType := "PowerLaw", Spectral_Index := 2 }

/-- A row whose `SpectrumType` no fill block handles. -/
def C4rowOther : SrcRow ℝ := { SpectrumType := "Gaussian" }

/-- Left table whose rows are not sorted by the join key. -/
def C2left : ATable ℚ :=
  { cols := [("k", CKind.str)], rows := [[Cell.str "B"], [Cell.str "A"]] }

/-- Right table with unique join-key values. -/
def C2right : ATable ℚ :=
  { cols := [("k", CKind.str), ("v", CKind.str)],
    rows := [[Cell.str "A", Cell.str "x"], [Cell.str "B", Cell.str "y"]] }

/-- A one-row left table already sorted by the join key. -/
def C2wleft : ATable ℚ :=
  { cols := [("k", CKind.str)], rows := [[Cell.str "A"]] }

/-- The join of `C2wleft` with `C2right`. -/
def C2wout : ATable ℚ :=
  { cols := [("k", CKind.str), ("v", CKind.str)],
    rows := [[Cell.str "A", Cell.str "x"]] }

/-- A tiny heap with two tables, used to witness the frame property of
the stateful join. -/
def C9heap : Heap ℚ :=
  [(1, { cols := [("kL", CKind.str)], rows := [[Cell.str "A"]] }),
   (2, { cols := [("k", CKind.str), ("v", CKind.str)],
         rows := [[Cell.str "A", Cell.str "x"]] })]

/-! ## Claims about the format dispatcher -/

/-- C7: when `Catalog.create` receives a path to a `.fits`/`.fit` file
whose `CDS-NAME` tag is `4FGL` and whose `VERSION` tag is present but in
none of the known schema-generation ranges v17-v35, it raises the
unrecognized-schema-version error and selects no normalizer. -/
theorem C7_unrecognized_version (arg : String) (f : FitsFile) (v : String)
    (hext : pySplitextExt arg = ".fits" ∨ pySplitextExt arg = ".fit")
    (hname : f.cdsName = some "4FGL")
    (hver : f.version = some v)
    (hnot : v ∉ gen4FGLv1 ++ gen4FGLv2 ++ gen4FGLv3 ++ gen4FGLv4) :
    Catalog_create arg f =
      Except.error "Error - 4FGL catalog fits file version not recognised." := by
  simp only [List.mem_append, not_or] at hnot
  obtain ⟨⟨⟨h1, h2⟩, h3⟩, h4⟩ := hnot
  rcases hext with he | he <;>
    simp [Catalog_create, he, hname, hver, h1, h2, h3, h4]

/-- C7 witness: a concrete 4FGL file with version tag `v16`. -/
theorem C7_witness :
    Catalog_create "gll_psc_v16.fits"
        { cdsName := some "4FGL", version := some "v16", columns := [] } =
      Except.error "Error - 4FGL catalog fits file version not recognised." :=
  C7_unrecognized_version _ _ "v16" (Or.inl (by decide)) rfl rfl (by decide)

/-- C8: a release-name token (an argument without a `.fits`/`.fit`
extension) matching none of the known identifiers makes `Catalog.create`
raise the unrecognized-catalog error; no entity class is selected. -/
theorem C8_unrecognized_token (arg : String) (f : FitsFile)
    (hext : ¬(pySplitextExt arg = ".fits" ∨ pySplitextExt arg = ".fit"))
    (h1 : arg ≠ "3FGL") (h2 : arg ≠ "2FHL") (h3 : arg ≠ "FL8Y") (h4 : arg ≠ "4FGL")
    (h5 : arg ≠ "4FGL-DR2") (h6 : arg ≠ "4FGL-DR3") (h7 : arg ≠ "4FGL-DR4") :
    Catalog_create arg f = Except.error ("Unrecognized catalog " ++ arg ++ ".") := by
  simp only [not_or] at hext
  simp [Catalog_create, hext.1, hext.2, h1, h2, h3, h4, h5, h6, h7]

/-- C8 witness: the unknown token `5FGL`. -/
theorem C8_witness :
    Catalog_create "5FGL" {} = Except.error "Unrecognized catalog 5FGL." :=
  C8_unrecognized_token "5FGL" {} (by decide) (by decide) (by decide) (by decide)
    (by decide) (by decide) (by decide) (by decide)

/-- C10: a `4FGL` file whose version tag is in a recognized
schema-generation range but whose generation signature column
(`PLEC_Index` for v17-v27, `PLEC_IndexS` for v28-v35) is absent does not
raise: dispatch falls through to `Catalog4FGLP` when a `NickName` column
is present and to `CatalogFPY` otherwise. -/
theorem C10_fallthrough (arg : String) (f : FitsFile) (v : String)
    (hext : pySplitextExt arg = ".fits" ∨ pySplitextExt arg = ".fit")
    (hname : f.cdsName = some "4FGL")
    (hver : f.version = some v)
    (hin : v ∈ gen4FGLv1 ++ gen4FGLv2 ++ gen4FGLv3 ++ gen4FGLv4)
    (hsig1 : v ∈ gen4FGLv1 ++ gen4FGLv2 → "PLEC_Index" ∉ f.columns)
    (hsig2 : v ∈ gen4FGLv3 ++ gen4FGLv4 → "PLEC_IndexS" ∉ f.columns) :
    Catalog_create arg f =
      (if "NickName" ∈ f.columns then Except.ok Sel.C4FGLP else Except.ok Sel.CFPY) := by
  simp only [gen4FGLv1, gen4FGLv2, gen4FGLv3, gen4FGLv4, List.mem_append,
    List.mem_cons, List.not_mem_nil, or_false] at hin
  rcases hin with (((rfl | rfl | rfl | rfl | rfl | rfl) | (rfl | rfl | rfl | rfl | rfl)) |
    (rfl | rfl | rfl | rfl)) | (rfl | rfl | rfl | rfl) <;>
  · first
    | (have hs := hsig1 (by decide)
       rcases hext with he | he <;>
         simp [Catalog_create, he, hname, hver, hs,
           gen4FGLv1, gen4FGLv2, gen4FGLv3, gen4FGLv4])
    | (have hs := hsig2 (by decide)
       rcases hext with he | he <;>
         simp [Catalog_create, he, hname, hver, hs,
           gen4FGLv1, gen4FGLv2, gen4FGLv3, gen4FGLv4])

/-- C10 witness: version `v20`, no `PLEC_Index` column, `NickName`
present, dispatching to `Catalog4FGLP`. -/
theorem C10_witness :
    Catalog_create "gll_psc_v20.fits"
        { cdsName := some "4FGL", version := some "v20", columns := ["NickName"] } =
      Except.ok Sel.C4FGLP := by
  have h := C10_fallthrough "gll_psc_v20.fits"
    { cdsName := some "4FGL", version := some "v20", columns := ["NickName"] }
    "v20" (Or.inl (by decide)) rfl rfl (by decide) (fun _ => by decide) (by decide)
  simpa using h

/-! ## Claims about the extension flag -/

/-- A string has positive length exactly when it is non-empty. -/
theorem string_length_pos_iff (s : String) : 0 < s.length ↔ s ≠ "" := by
  cases s with
  | mk data =>
    constructor
    · intro h he
      have : data = [] := by simpa [String.ext_iff] using he
      simp [String.length, this] at h
    · intro h
      have : data ≠ [] := fun e => h (by simp [String.ext_iff, e])
      simpa [String.length, List.length_pos] using this

/-- C5: after the base constructor, a row's `extended` flag is true
exactly when its `Spatial_Filename` or its `Spatial_Function` cell is
non-empty. -/
theorem C5_base_extended_iff (rows : List SpatialRow) (i : Nat)
    (hi : i < rows.length) :
    (Catalog_init_extendedCol rows).getD i false = true ↔
      ((rows.getD i default).Spatial_Filename ≠ "" ∨
        (rows.getD i default).Spatial_Function ≠ "") := by
  unfold Catalog_init_extendedCol
  induction rows generalizing i with
  | nil => simp at hi
  | cons a l ih =>
    cases i with
    | zero => simp [Catalog_init_extended]
    | succ n =>
      have hn : n < l.length := by simpa using hi
      simpa using ih n hn

/-- C5 witness: a row with both cells empty is not extended; rows with
either cell populated are extended. -/
theorem C5_witness :
    (Catalog_init_extendedCol
        [{ Spatial_Filename := "", Spatial_Function := "" },
         { Spatial_Filename := "W44.fits", Spatial_Function := "" },
         { Spatial_Filename := "", Spatial_Function := "RadialDisk" }]).getD 0 false ≠ true ∧
    (Catalog_init_extendedCol
        [{ Spatial_Filename := "", Spatial_Function := "" },
         { Spatial_Filename := "W44.fits", Spatial_Function := "" },
         { Spatial_Filename := "", Spatial_Function := "RadialDisk" }]).getD 1 false = true ∧
    (Catalog_init_extendedCol
        [{ Spatial_Filename := "", Spatial_Function := "" },
         { Spatial_Filename := "W44.fits", Spatial_Function := "" },
         { Spatial_Filename := "", Spatial_Function := "RadialDisk" }]).getD 2 false = true := by
  refine ⟨?_, ?_, ?_⟩
  · intro h
    have := (C5_base_extended_iff
      [{ Spatial_Filename := "", Spatial_Function := "" },
       { Spatial_Filename := "W44.fits", Spatial_Function := "" },
       { Spatial_Filename := "", Spatial_Function := "RadialDisk" }] 0 (by decide)).mp h
    rcases this with h' | h' <;> exact h' rfl
  · exact (C5_base_extended_iff
      [{ Spatial_Filename := "", Spatial_Function := "" },
       { Spatial_Filename := "W44.fits", Spatial_Function := "" },
       { Spatial_Filename := "", Spatial_Function := "RadialDisk" }] 1 (by decide)).mpr
      (Or.inl (by decide))
  · exact (C5_base_extended_iff
      [{ Spatial_Filename := "", Spatial_Function := "" },
       { Spatial_Filename := "W44.fits", Spatial_Function := "" },
       { Spatial_Filename := "", Spatial_Function := "RadialDisk" }] 2 (by decide)).mpr
      (Or.inr (by decide))

/-- C6: for each 4FGL-family normalizer, the post-processing block sets
both `extended` and `Extended` to true exactly when the row's
`Extended_Source_Name` is non-empty after stripping whitespace,
independently of the value the base constructor's filename/function
rule produced (the composed pipeline gives the same answer for every
base value). -/
theorem C6_extended_from_esn (k : Kind4) (b : Bool) (r : Row4) :
    ((fourFGL_post k b r).1 = true ↔ pyStrip r.Extended_Source_Name ≠ "") ∧
    (fourFGL_post k b r).2 = (fourFGL_post k b r).1 ∧
    fourFGL_post k b r = fourFGL_extended k r := by
  cases k <;>
    refine ⟨?_, rfl, rfl⟩ <;>
    simpa [fourFGL_post] using string_length_pos_iff (pyStrip r.Extended_Source_Name)

/-! ## Claims about the parameter-vector fills -/

/-- C3: for a PLSuperExpCutoff2 row, each of the 4FGL-era fills
(`Catalog4FGL`, `CatalogFL8Y`, `Catalog4FGLDR2`) writes
Prefactor = flux-density × exp(expfactor × pivot^exp_index),
Index1 = −1 × index, Scale = pivot, Expfactor = expfactor and
Index2 = exp_index, at the slots the Registry assigns those names
(the flux-density column is `PLEC_Flux_Density` for 4FGL/DR2 and
`Flux_Density` for FL8Y). -/
theorem C3_plec2_fill (row : SrcRow ℝ)
    (h : row.SpectrumType = "PLSuperExpCutoff2") :
    ((Catalog4FGL_fill Real.exp (fun a b => a ^ b) get_function_par_names row).getD
        (parSlot get_function_par_names "PLSuperExpCutoff2" "Prefactor") none =
      some (row.PLEC_Flux_Density *
        Real.exp (row.PLEC_Expfactor * row.Pivot_Energy ^ row.PLEC_Exp_Index)) ∧
     (Catalog4FGL_fill Real.exp (fun a b => a ^ b) get_function_par_names row).getD
        (parSlot get_function_par_names "PLSuperExpCutoff2" "Index1") none =
      some (-1 * row.PLEC_Index) ∧
     (Catalog4FGL_fill Real.exp (fun a b => a ^ b) get_function_par_names row).getD
        (parSlot get_function_par_names "PLSuperExpCutoff2" "Scale") none =
      some row.Pivot_Energy ∧
     (Catalog4FGL_fill Real.exp (fun a b => a ^ b) get_function_par_names row).getD
        (parSlot get_function_par_names "PLSuperExpCutoff2" "Expfactor") none =
      some row.PLEC_Expfactor ∧
     (Catalog4FGL_fill Real.exp (fun a b => a ^ b) get_function_par_names row).getD
        (parSlot get_function_par_names "PLSuperExpCutoff2" "Index2") none =
      some row.PLEC_Exp_Index) ∧
    ((CatalogFL8Y_fill Real.exp (fun a b => a ^ b) get_function_par_names row).getD
        (parSlot get_function_par_names "PLSuperExpCutoff2" "Prefactor") none =
      some (row.Flux_Density *
        Real.exp (row.PLEC_Expfactor * row.Pivot_Energy ^ row.PLEC_Exp_Index)) ∧
     (CatalogFL8Y_fill Real.exp (fun a b => a ^ b) get_function_par_names row).getD
        (parSlot get_function_par_names "PLSuperExpCutoff2" "Index1") none =
      some (-1 * row.PLEC_Index) ∧
     (CatalogFL8Y_fill Real.exp (fun a b => a ^ b) get_function_par_names row).getD
        (parSlot get_function_par_names "PLSuperExpCutoff2" "Scale") none =
      some row.Pivot_Energy ∧
     (CatalogFL8Y_fill Real.exp (fun a b => a ^ b) get_function_par_names row).getD
        (parSlot get_function_par_names "PLSuperExpCutoff2" "Expfactor") none =
      some row.PLEC_Expfactor ∧
     (CatalogFL8Y_fill Real.exp (fun a b => a ^ b) get_function_par_names row).getD
        (parSlot get_function_par_names "PLSuperExpCutoff2" "Index2") none =
      some row.PLEC_Exp_Index) ∧
    ((Catalog4FGLDR2_fill Real.exp (fun a b => a ^ b) get_function_par_names row).getD
        (parSlot get_function_par_names "PLSuperExpCutoff2" "Prefactor") none =
      some (row.PLEC_Flux_Density *
        Real.exp (row.PLEC_Expfactor * row.Pivot_Energy ^ row.PLEC_Exp_Index)) ∧
     (Catalog4FGLDR2_fill Real.exp (fun a b => a ^ b) get_function_par_names row).getD
        (parSlot get_function_par_names "PLSuperExpCutoff2" "Index1") none =
      some (-1 * row.PLEC_Index) ∧
     (Catalog4FGLDR2_fill Real.exp (fun a b => a ^ b) get_function_par_names row).getD
        (parSlot get_function_par_names "PLSuperExpCutoff2" "Scale") none =
      some row.Pivot_Energy ∧
     (Catalog4FGLDR2_fill Real.exp (fun a b => a ^ b) get_function_par_names row).getD
        (parSlot get_function_par_names "PLSuperExpCutoff2" "Expfactor") none =
      some row.PLEC_Expfactor ∧
     (Catalog4FGLDR2_fill Real.exp (fun a b => a ^ b) get_function_par_names row).getD
        (parSlot get_function_par_names "PLSuperExpCutoff2" "Index2") none =
      some row.PLEC_Exp_Index) := by
  unfold Catalog4FGL_fill CatalogFL8Y_fill Catalog4FGLDR2_fill
  rw [h]
  exact ⟨⟨rfl, rfl, rfl, rfl, rfl⟩, ⟨rfl, rfl, rfl, rfl, rfl⟩, ⟨rfl, rfl, rfl, rfl, rfl⟩⟩

/-- C3 witness: the spec's scenario row (flux-density 1.0e-12,
expfactor 0.01, pivot 1000, exp_index 1.5, index 2.0) fills
Prefactor = 1.0e-12 × exp(0.01 × 1000^1.5), Index1 = −2.0, Scale = 1000,
Expfactor = 0.01 and Index2 = 1.5 (slots 0-4, the canonical Registry
positions). -/
theorem C3_witness :
    (Catalog4FGL_fill Real.exp (fun a b => a ^ b) get_function_par_names C3row).getD 0 none =
      some ((1.0e-12 : ℝ) * Real.exp (0.01 * (1000 : ℝ) ^ (1.5 : ℝ))) ∧
    (Catalog4FGL_fill Real.exp (fun a b => a ^ b) get_function_par_names C3row).getD 1 none =
      some (-(2.0 : ℝ)) ∧
    (Catalog4FGL_fill Real.exp (fun a b => a ^ b) get_function_par_names C3row).getD 2 none =
      some (1000 : ℝ) ∧
    (Catalog4FGL_fill Real.exp (fun a b => a ^ b) get_function_par_names C3row).getD 3 none =
      some (0.01 : ℝ) ∧
    (Catalog4FGL_fill Real.exp (fun a b => a ^ b) get_function_par_names C3row).getD 4 none =
      some (1.5 : ℝ) := by
  obtain ⟨⟨h0, h1, h2, h3, h4⟩, _, _⟩ := C3_plec2_fill C3row rfl
  exact ⟨h0, h1.trans (by norm_num [C3row]), h2, h3, h4⟩

/-- C4: after any release's `_fill_params`, a PowerLaw row's Index slot
holds exactly −1 × that release's spectral-index column, every slot not
named by the PowerLaw canonical parameter list stays NaN, and a row
whose `SpectrumType` no block of that release handles keeps all ten
slots NaN. -/
theorem C4_powerlaw_and_nan (k : FillKind) (row : SrcRow ℝ) :
    (row.SpectrumType = "PowerLaw" →
      (fill_params Real.exp (fun a b => a ^ b) k row).getD
          (parSlot get_function_par_names "PowerLaw" "Index") none =
        some (-1 * powerLawIndexCol k row) ∧
      ∀ j : Nat, j < 10 →
        (∀ p ∈ get_function_par_names "PowerLaw",
          parSlot get_function_par_names "PowerLaw" p ≠ j) →
        (fill_params Real.exp (fun a b => a ^ b) k row).getD j none = none) ∧
    (row.SpectrumType ∉ handledTypes k →
      fill_params Real.exp (fun a b => a ^ b) k row = nanVec ℝ) := by
  cases k <;>
  · constructor
    · intro h
      constructor
      · simp only [fill_params, Catalog2FHL_fill, Catalog3FGL_fill, Catalog4FGL_fill,
          CatalogFL8Y_fill, Catalog4FGLDR2_fill, Catalog4FGLDR3_fill,
          Catalog4FGLDR4_fill, h]
        rfl
      · intro j hj hnot
        have h0 := hnot "Prefactor" (by decide)
        have h1 := hnot "Index" (by decide)
        have h2 := hnot "Scale" (by decide)
        simp only [fill_params, Catalog2FHL_fill, Catalog3FGL_fill, Catalog4FGL_fill,
          CatalogFL8Y_fill, Catalog4FGLDR2_fill, Catalog4FGLDR3_fill,
          Catalog4FGLDR4_fill, h]
        interval_cases j
        all_goals first
          | rfl
          | exact absurd rfl h0
          | exact absurd rfl h1
          | exact absurd rfl h2
    · intro hn
      simp only [handledTypes, List.mem_cons, List.not_mem_nil, or_false, not_or] at hn
      simp [fill_params, Catalog2FHL_fill, Catalog3FGL_fill, Catalog4FGL_fill,
        CatalogFL8Y_fill, Catalog4FGLDR2_fill, Catalog4FGLDR3_fill,
        Catalog4FGLDR4_fill, hn]

/-- C4 witness: under the 3FGL fill, a PowerLaw row with spectral index
2 gets Index slot −1 × 2, slot 5 stays NaN, and a row of unhandled type
keeps the all-NaN vector. -/
theorem C4_witness :
    (fill_params Real.exp (fun a b => a ^ b) FillKind.C3FGL C4rowPL).getD 1 none =
      some (-1 * (2 : ℝ)) ∧
    (fill_params Real.exp (fun a b => a ^ b) FillKind.C3FGL C4rowPL).getD 5 none = none ∧
    fill_params Real.exp (fun a b => a ^ b) FillKind.C3FGL C4rowOther = nanVec ℝ := by
  obtain ⟨hpl, hun⟩ := C4_powerlaw_and_nan FillKind.C3FGL C4rowPL
  obtain ⟨hidx, hnan⟩ := hpl rfl
  refine ⟨hidx, hnan 5 (by decide) (by decide), ?_⟩
  exact (C4_powerlaw_and_nan FillKind.C3FGL C4rowOther).2 (by decide)

/-- C1 counterexample: `Catalog2FHL._fill_params` does not choose its
slots from the ordering the Registry returns — it writes the fixed
literal slots 0, 1, 2.  Under the permuted PowerLaw ordering
`["Scale", "Index", "Prefactor"]` the registry-driven fill (the spec's
rule, `regVec`) puts the Prefactor value at slot 2, while the 2FHL fill
still puts it at slot 0, so the two vectors differ on a concrete
PowerLaw row. -/
theorem C1_counterexample :
    Catalog2FHL_fill C1rowQ ≠
      regVec permPLReg "PowerLaw"
        [("Prefactor", C1rowQ.Flux_Density),
         ("Index", -1 * C1rowQ.Spectral_Index),
         ("Scale", C1rowQ.Pivot_Energy)] := by decide

/-- C1 amended: every `_fill_params` variant except `Catalog2FHL`'s
chooses each written slot as the position of the parameter's name in
whatever ordering the Registry returns (the fill equals the spec's
registry-driven `regVec` for every registry ordering `reg`);
`Catalog2FHL._fill_params` writes the fixed literal slots 0, 1, 2,
which coincide with the canonical `get_function_par_names` positions of
Prefactor, Index and Scale, so its result still equals the
registry-driven fill at the canonical ordering. -/
theorem C1_amended (reg : Registry) (row : SrcRow ℝ) :
    (row.SpectrumType = "PowerLaw" →
      Catalog2FHL_fill row =
        regVec get_function_par_names "PowerLaw"
          [("Prefactor", row.Flux_Density), ("Index", -1 * row.Spectral_Index),
           ("Scale", row.Pivot_Energy)]) ∧
    (row.SpectrumType = "PowerLaw" →
      Catalog3FGL_fill Real.exp (fun a b => a ^ b) reg row =
        regVec reg "PowerLaw"
          [("Prefactor", row.Flux_Density), ("Index", -1 * row.Spectral_Index),
           ("Scale", row.Pivot_Energy)]) ∧
    (row.SpectrumType = "PLSuperExpCutoff" →
      Catalog3FGL_fill Real.exp (fun a b => a ^ b) reg row =
        regVec reg "PLSuperExpCutoff"
          [("Prefactor", row.Flux_Density *
              Real.exp ((row.Pivot_Energy / row.Cutoff) ^ row.Exp_Index)),
           ("Index1", -1 * row.Spectral_Index), ("Scale", row.Pivot_Energy),
           ("Cutoff", row.Cutoff), ("Index2", row.Exp_Index)]) ∧
    (row.SpectrumType = "LogParabola" →
      Catalog3FGL_fill Real.exp (fun a b => a ^ b) reg row =
        regVec reg "LogParabola"
          [("norm", row.Flux_Density), ("alpha", row.Spectral_Index),
           ("beta", row.beta), ("Eb", row.Pivot_Energy)]) ∧
    (row.SpectrumType = "PowerLaw" →
      Catalog4FGL_fill Real.exp (fun a b => a ^ b) reg row =
        regVec reg "PowerLaw"
          [("Prefactor", row.PL_Flux_Density), ("Index", -1 * row.PL_Index),
           ("Scale", row.Pivot_Energy)]) ∧
    (row.SpectrumType = "PLSuperExpCutoff2" →
      Catalog4FGL_fill Real.exp (fun a b => a ^ b) reg row =
        regVec reg "PLSuperExpCutoff2"
          [("Prefactor", row.PLEC_Flux_Density *
              Real.exp (row.PLEC_Expfactor * row.Pivot_Energy ^ row.PLEC_Exp_Index)),
           ("Index1", -1 * row.PLEC_Index), ("Scale", row.Pivot_Energy),
           ("Expfactor", row.PLEC_Expfactor), ("Index2", row.PLEC_Exp_Index)]) ∧
    (row.SpectrumType = "LogParabola" →
      Catalog4FGL_fill Real.exp (fun a b => a ^ b) reg row =
        regVec reg "LogParabola"
          [("norm", row.LP_Flux_Density), ("alpha", row.LP_Index),
           ("beta", row.LP_beta), ("Eb", row.Pivot_Energy)]) ∧
    (row.SpectrumType = "PowerLaw" →
      CatalogFL8Y_fill Real.exp (fun a b => a ^ b) reg row =
        regVec reg "PowerLaw"
          [("Prefactor", row.Flux_Density), ("Index", -1 * row.PL_Index),
           ("Scale", row.Pivot_Energy)]) ∧
    (row.SpectrumType = "PLSuperExpCutoff2" →
      CatalogFL8Y_fill Real.exp (fun a b => a ^ b) reg row =
        regVec reg "PLSuperExpCutoff2"
          [("Prefactor", row.Flux_Density *
              Real.exp (row.PLEC_Expfactor * row.Pivot_Energy ^ row.PLEC_Exp_Index)),
           ("Index1", -1 * row.PLEC_Index), ("Scale", row.Pivot_Energy),
           ("Expfactor", row.PLEC_Expfactor), ("Index2", row.PLEC_Exp_Index)]) ∧
    (row.SpectrumType = "LogParabola" →
      CatalogFL8Y_fill Real.exp (fun a b => a ^ b) reg row =
        regVec reg "LogParabola"
          [("norm", row.Flux_Density), ("alpha", row.LP_Index),
           ("beta", row.LP_beta), ("Eb", row.Pivot_Energy)]) ∧
    (row.SpectrumType = "PowerLaw" →
      Catalog4FGLDR2_fill Real.exp (fun a b => a ^ b) reg row =
        regVec reg "PowerLaw"
          [("Prefactor", row.PL_Flux_Density), ("Index", -1 * row.PL_Index),
           ("Scale", row.Pivot_Energy)]) ∧
    (row.SpectrumType = "PLSuperExpCutoff2" →
      Catalog4FGLDR2_fill Real.exp (fun a b => a ^ b) reg row =
        regVec reg "PLSuperExpCutoff2"
          [("Prefactor", row.PLEC_Flux_Density *
              Real.exp (row.PLEC_Expfactor * row.Pivot_Energy ^ row.PLEC_Exp_Index)),
           ("Index1", -1 * row.PLEC_Index), ("Scale", row.Pivot_Energy),
           ("Expfactor", row.PLEC_Expfactor), ("Index2", row.PLEC_Exp_Index)]) ∧
    (row.SpectrumType = "LogParabola" →
      Catalog4FGLDR2_fill Real.exp (fun a b => a ^ b) reg row =
        regVec reg "LogParabola"
          [("norm", row.LP_Flux_Density), ("alpha", row.LP_Index),
           ("beta", row.LP_beta), ("Eb", row.Pivot_Energy)]) ∧
    (row.SpectrumType = "PowerLaw" →
      Catalog4FGLDR3_fill reg row =
        regVec reg "PowerLaw"
          [("Prefactor", row.PL_Flux_Density), ("Index", -1 * row.PL_Index),
           ("Scale", row.Pivot_Energy)]) ∧
    (row.SpectrumType = "PLSuperExpCutoff4" →
      Catalog4FGLDR3_fill reg row =
        regVec reg "PLSuperExpCutoff4"
          [("Prefactor", row.PLEC_Flux_Density), ("IndexS", -1 * row.PLEC_IndexS),
           ("Scale", row.Pivot_Energy), ("ExpfactorS", row.PLEC_ExpfactorS),
           ("Index2", row.PLEC_Exp_Index)]) ∧
    (row.SpectrumType = "LogParabola" →
      Catalog4FGLDR3_fill reg row =
        regVec reg "LogParabola"
          [("norm", row.LP_Flux_Density), ("alpha", row.LP_Index),
           ("beta", row.LP_beta), ("Eb", row.Pivot_Energy)]) ∧
    (row.SpectrumType = "PowerLaw" →
      Catalog4FGLDR4_fill reg row =
        regVec reg "PowerLaw"
          [("Prefactor", row.PL_Flux_Density), ("Index", -1 * row.PL_Index),
           ("Scale", row.Pivot_Energy)]) ∧
    (row.SpectrumType = "PLSuperExpCutoff4" →
      Catalog4FGLDR4_fill reg row =
        regVec reg "PLSuperExpCutoff4"
          [("Prefactor", row.PLEC_Flux_Density), ("IndexS", -1 * row.PLEC_IndexS),
           ("Scale", row.Pivot_Energy), ("ExpfactorS", row.PLEC_ExpfactorS),
           ("Index2", row.PLEC_Exp_Index)]) ∧
    (row.SpectrumType = "LogParabola" →
      Catalog4FGLDR4_fill reg row =
        regVec reg "LogParabola"
          [("norm", row.LP_Flux_Density), ("alpha", row.LP_Index),
           ("beta", row.LP_beta), ("Eb", row.Pivot_Energy)]) := by
  refine ⟨?_, ?_, ?_, ?_, ?_, ?_, ?_, ?_, ?_, ?_, ?_, ?_, ?_, ?_, ?_, ?_, ?_, ?_, ?_⟩ <;>
  · intro h
    simp only [Catalog2FHL_fill, Catalog3FGL_fill, Catalog4FGL_fill, CatalogFL8Y_fill,
      Catalog4FGLDR2_fill, Catalog4FGLDR3_fill, Catalog4FGLDR4_fill, regVec, h]
    rfl

/-- C1 witness: the amended statement at the canonical registry on a
concrete PowerLaw row. -/
theorem C1_witness :
    Catalog2FHL_fill C1rowW =
      regVec get_function_par_names "PowerLaw"
        [("Prefactor", C1rowW.Flux_Density), ("Index", -1 * C1rowW.Spectral_Index),
         ("Scale", C1rowW.Pivot_Energy)] :=
  (C1_amended get_function_par_names C1rowW).1 rfl

/-! ## The frame property of `join_tables` -/

/-- Every member of a list of naturals is bounded by its foldr-max. -/
theorem le_foldr_max (l : List Nat) (a : Nat) (h : a ∈ l) :
    a ≤ l.foldr max 0 := by
  induction l with
  | nil => cases h
  | cons b t ih =>
    rcases List.mem_cons.mp h with rfl | h
    · exact le_max_left _ _
    · exact le_trans (ih h) (le_max_right _ _)

/-- Every allocated reference is strictly below the fresh one. -/
theorem entry_lt_hfresh (h : Heap R) (p : Nat × ATable R) (hp : p ∈ h) :
    p.1 < hfresh h := by
  have : p.1 ∈ h.map (fun q => q.1) := List.mem_map_of_mem _ hp
  have := le_foldr_max _ _ this
  unfold hfresh
  omega

/-- A reference that resolves in the heap is strictly below the fresh
one. -/
theorem hget_lt_hfresh (h : Heap R) (r : Nat) (hr : (hget h r).isSome = true) :
    r < hfresh h := by
  unfold hget at hr
  cases hf : h.find? (fun p => p.1 == r) with
  | none => rw [hf] at hr; simp at hr
  | some p =>
    have hmem := List.mem_of_find?_eq_some hf
    have hpr : p.1 = r := by simpa using List.find?_some hf
    exact hpr ▸ entry_lt_hfresh h p hmem

/-- Prepending an entry with a different reference does not change a
lookup. -/
theorem hget_cons_ne (c : Nat) (t : ATable R) (h : Heap R) (r : Nat)
    (hne : c ≠ r) : hget ((c, t) :: h) r = hget h r := by
  unfold hget
  rw [List.find?_cons_of_neg]
  simpa using hne

/-- Overwriting an unallocated reference leaves the heap unchanged. -/
theorem hset_not_mem (h : Heap R) (c : Nat) (t : ATable R)
    (hc : ∀ p ∈ h, p.1 ≠ c) : hset h c t = h := by
  unfold hset
  induction h with
  | nil => rfl
  | cons q tl ih =>
    have hq : (q.1 == c) = false := by
      simpa using hc q (List.mem_cons_self q tl)
    simp only [List.map_cons, hq, Bool.false_eq_true, if_false]
    rw [ih (fun p hp => hc p (List.mem_cons_of_mem q hp))]

/-- C9: `join_tables` never mutates the caller's tables: every
reference allocated before the call, in particular the caller's `right`
table with its column names and cell values, resolves to the same table
after the call (the function works on a freshly allocated copy of
`right`; only that copy is renamed in place). -/
theorem C9_frame (h : Heap R) (lref rref : Nat) (kl kr : String)
    (cr : Option (List String)) (r : Nat) (hr : (hget h r).isSome = true) :
    hget (join_tables_st h lref rref kl kr cr).1 r = hget h r := by
  unfold join_tables_st
  cases hL : hget h lref with
  | none => rfl
  | some left =>
    cases hR : hget h rref with
    | none => rfl
    | some right =>
      have hlt : r < hfresh h := hget_lt_hfresh h r hr
      have hne : hfresh h ≠ r := by omega
      have hself : ∀ p ∈ h, p.1 ≠ hfresh h :=
        fun p hp => Nat.ne_of_lt (entry_lt_hfresh h p hp)
      dsimp only
      by_cases hk : kl ≠ kr
      · rw [if_pos hk]
        have hfr : (hfresh h == hfresh h) = true := by simp
        unfold hset
        rw [List.map_cons]
        simp only [hfr, if_true]
        have : (h.map (fun p => if p.1 == hfresh h then (hfresh h, renameCol right kr kl) else p)) = h := by
          have := hset_not_mem h (hfresh h) (renameCol right kr kl) hself
          simpa [hset] using this
        rw [this]
        exact hget_cons_ne _ _ _ _ hne
      · rw [if_neg hk]
        exact hget_cons_ne _ _ _ _ hne

/-- C9 witness: after a stateful join (with differing key names, so the
rename path is exercised), the caller's right table is unchanged. -/
theorem C9_witness :
    hget (join_tables_st C9heap 1 2 "kL" "k" (some ["v"])).1 2 = hget C9heap 2 :=
  C9_frame C9heap 1 2 "kL" "k" (some ["v"]) 2 (by decide)

/-! ## Row-count and row-order of `join_tables` -/

/-- Inserting grows the length by one. -/
theorem insertLe_length {α} (le : α → α → Bool) (a : α) (l : List α) :
    (insertLe le a l).length = l.length + 1 := by
  induction l with
  | nil => rfl
  | cons b bs ih =>
    unfold insertLe
    by_cases h : le a b = true
    · simp [h]
    · simp [h, ih]

/-- Sorting preserves the length. -/
theorem insSort_length {α} (le : α → α → Bool) (l : List α) :
    (insSort le l).length = l.length := by
  induction l with
  | nil => rfl
  | cons a as ih => simp [insSort, insertLe_length, ih]

/-- Membership in an insertion. -/
theorem mem_insertLe {α} (le : α → α → Bool) (a b : α) (l : List α) :
    b ∈ insertLe le a l ↔ b = a ∨ b ∈ l := by
  induction l with
  | nil => simp [insertLe]
  | cons c cs ih =>
    unfold insertLe
    by_cases h : le a c = true
    · simp [h, List.mem_cons]
    · simp [h, List.mem_cons, ih]
      tauto

/-- Sorting preserves membership. -/
theorem mem_insSort {α} (le : α → α → Bool) (b : α) (l : List α) :
    b ∈ insSort le l ↔ b ∈ l := by
  induction l with
  | nil => simp [insSort]
  | cons a as ih => simp [insSort, mem_insertLe, ih, List.mem_cons]

/-- Two cells equal to the same key cell are equal to each other. -/
theorem cellEqb_trans_right (a b k : Cell R) (ha : cellEqb a k = true)
    (hb : cellEqb b k = true) : cellEqb a b = true := by
  cases a <;> cases b <;> cases k <;>
    simp_all [cellEqb]

/-- A list in which no two elements both satisfy the predicate has at
most one element satisfying it. -/
theorem filter_length_le_one {α} (l : List α) (p : α → Bool)
    (h : l.Pairwise (fun a b => ¬(p a = true ∧ p b = true))) :
    (l.filter p).length ≤ 1 := by
  induction l with
  | nil => simp
  | cons a t ih =>
    obtain ⟨ha, ht⟩ := List.pairwise_cons.mp h
    by_cases pa : p a = true
    · rw [List.filter_cons_of_pos pa]
      have hnil : t.filter p = [] := by
        rw [List.filter_eq_nil_iff]
        intro b hb pb
        exact (ha b hb) ⟨pa, pb⟩
      simp [hnil]
    · rw [List.filter_cons_of_neg (by simpa using pa)]
      exact ih ht

/-- A filterMap whose function always returns `some` is a map. -/
theorem filterMap_eq_map_of_some {α β} (l : List α) (f : α → Option β) (g : α → β)
    (h : ∀ a ∈ l, f a = some (g a)) : l.filterMap f = l.map g := by
  induction l with
  | nil => rfl
  | cons a t ih =>
    rw [List.filterMap_cons, h a (List.mem_cons_self a t), List.map_cons,
      ih (fun b hb => h b (List.mem_cons_of_mem a hb))]

/-- `findIdx` over a mapped list. -/
theorem findIdx_map' {α β} (l : List α) (f : α → β) (p : β → Bool) :
    (l.map f).findIdx p = l.findIdx (fun a => p (f a)) := by
  induction l with
  | nil => rfl
  | cons a t ih => simp [List.findIdx_cons, ih]

/-- A flatMap whose pieces are singletons preserves the length. -/
theorem flatMap_length_of_one {α β} (l : List α) (f : α → List β)
    (h : ∀ x ∈ l, (f x).length = 1) : (l.flatMap f).length = l.length := by
  induction l with
  | nil => rfl
  | cons a t ih =>
    rw [List.flatMap_cons, List.length_append, h a (List.mem_cons_self a t),
      ih (fun b hb => h b (List.mem_cons_of_mem a hb))]
    simp only [List.length_cons]
    omega

/-- Mapping a projection over a flatMap of singletons that preserve the
projection gives the map of the projection. -/
theorem map_flatMap_of_key {α β γ} (l : List α) (f : α → List β) (g : β → γ)
    (g' : α → γ) (h : ∀ x ∈ l, (f x).map g = [g' x]) :
    (l.flatMap f).map g = l.map g' := by
  induction l with
  | nil => rfl
  | cons a t ih =>
    rw [List.flatMap_cons, List.map_append, h a (List.mem_cons_self a t),
      List.map_cons, ih (fun b hb => h b (List.mem_cons_of_mem a hb))]
    rfl

/-- If some element of a list satisfies the predicate, `findIdx` is in
range. -/
theorem findIdx_lt_of_exists {α} (l : List α) (p : α → Bool)
    (h : ∃ x ∈ l, p x = true) : l.findIdx p < l.length := by
  induction l with
  | nil => simp at h
  | cons a t ih =>
    rw [List.findIdx_cons]
    by_cases pa : p a = true
    · simp [pa]
    · obtain ⟨x, hx, px⟩ := h
      rcases List.mem_cons.mp hx with rfl | hx
      · exact absurd px pa
      · have hfalse : p a = false := by simpa using pa
        have := ih ⟨x, hx, px⟩
        simp only [hfalse, cond_false, List.length_cons]
        omega

/-- The element a mapped list holds at the first position where the
underlying name equals the key. -/
theorem sel_key_cell {γ} (names : List String) (g : String → γ) (key : String)
    (d : γ) (hkey : key ∈ names) :
    (names.map g).getD (names.findIdx (fun n => n == key)) d = g key := by
  induction names with
  | nil => cases hkey
  | cons n ns ih =>
    rw [List.findIdx_cons]
    by_cases h : n = key
    · subst h
      simp
    · have hb : (n == key) = false := by simpa using h
      have hk : key ∈ ns := by
        rcases List.mem_cons.mp hkey with rfl | hk
        · exact absurd rfl h
        · exact hk
      simp only [hb, cond_false, List.map_cons, List.getD_cons_succ]
      exact ih hk

/-- After renaming `old` to a name `new` that no column bears, the index
of `new` is the index `old` had. -/
theorem rename_findIdx (cols : List (String × CKind)) (old new : String)
    (hnew : ∀ p ∈ cols, p.1 ≠ new) :
    (cols.map (fun p => if p.1 == old then (new, p.2) else p)).findIdx
        (fun p => p.1 == new) =
      cols.findIdx (fun p => p.1 == old) := by
  induction cols with
  | nil => rfl
  | cons q tl ih =>
    by_cases hq : q.1 = old
    · simp [List.findIdx_cons, hq]
    · have h1 : (q.1 == old) = false := by simpa using hq
      have h2 : (q.1 == new) = false := by
        simpa using hnew q (List.mem_cons_self q tl)
      simp only [List.map_cons, h1, Bool.false_eq_true, if_false, List.findIdx_cons, h2,
        cond_false]
      rw [ih (fun p hp => hnew p (List.mem_cons_of_mem q hp))]

/-- Filling masked cells does not change a non-masked cell in range. -/
theorem fillRow_getD (r : List (Cell R)) (cols : List (String × CKind)) (li : Nat)
    (hlr : li < r.length) (hlc : li < cols.length)
    (hnm : r.getD li Cell.masked ≠ Cell.masked) :
    ((r.zip cols).map (fun pc =>
        match pc.1 with
        | Cell.masked => fillOfKind pc.2.2
        | c => c)).getD li Cell.masked = r.getD li Cell.masked := by
  have hz : li < (r.zip cols).length := by
    rw [List.length_zip]
    omega
  have hzm : li < ((r.zip cols).map (fun pc =>
      match pc.1 with
      | Cell.masked => fillOfKind pc.2.2
      | c => c)).length := by
    simpa using hz
  rw [List.getD_eq_getElem _ _ hzm, List.getD_eq_getElem _ _ hlr] at *
  rw [List.getElem_map, List.getElem_zip]
  rcases hc : r[li] with s | n | x | _
  · rfl
  · rfl
  · rfl
  · exact absurd hc hnm

/-- `findIdx` only depends on the predicate's values on the list. -/
theorem findIdx_congr {α} (l : List α) (p q : α → Bool)
    (h : ∀ a ∈ l, p a = q a) : l.findIdx p = l.findIdx q := by
  induction l with
  | nil => rfl
  | cons a t ih =>
    rw [List.findIdx_cons, List.findIdx_cons, h a (List.mem_cons_self a t),
      ih (fun b hb => h b (List.mem_cons_of_mem a hb))]

/-- What a successful column selection tells us. -/
theorem tableSelect_some (t : ATable R) (names : List String) (sel : ATable R)
    (h : tableSelect t names = some sel) :
    (∀ n ∈ names, n ∈ t.colnames) ∧
    sel.cols = names.filterMap (fun n => t.cols.find? (fun p => p.1 == n)) ∧
    sel.rows = t.rows.map (fun r => names.filterMap (fun n => r.get? (colIdx t n))) := by
  unfold tableSelect at h
  split at h
  case isTrue hc =>
    refine ⟨?_, ?_, ?_⟩
    · intro n hn
      have := (List.all_eq_true.mp hc) n hn
      simpa using this
    · exact (Option.some.inj h).symm ▸ rfl
    · exact (Option.some.inj h).symm ▸ rfl
  case isFalse => cases h

/-- A present column name has an in-range index. -/
theorem colIdx_lt_of_mem (t : ATable R) (key : String) (h : key ∈ t.colnames) :
    colIdx t key < t.cols.length := by
  apply findIdx_lt_of_exists
  obtain ⟨p, hp, he⟩ := List.mem_map.mp h
  exact ⟨p, hp, by simpa using he⟩

/-- The key's position in a selected table is its position in the
selection list. -/
theorem tableSelect_key_idx (t : ATable R) (names : List String) (sel : ATable R)
    (h : tableSelect t names = some sel) (key : String) :
    colIdx sel key = names.findIdx (fun n => n == key) := by
  obtain ⟨hall, hcols, _⟩ := tableSelect_some t names sel h
  have hsome : ∀ n ∈ names, t.cols.find? (fun p => p.1 == n) =
      some ((t.cols.find? (fun p => p.1 == n)).getD ("", CKind.str)) := by
    intro n hn
    have : (t.cols.find? (fun p => p.1 == n)).isSome = true := by
      rw [List.find?_isSome]
      obtain ⟨p, hp, he⟩ := List.mem_map.mp (hall n hn)
      exact ⟨p, hp, by simpa using he⟩
    cases hf : t.cols.find? (fun p => p.1 == n) with
    | none => rw [hf] at this; cases this
    | some q => rfl
  unfold colIdx
  rw [hcols, filterMap_eq_map_of_some _ _ _ hsome, findIdx_map']
  apply findIdx_congr
  intro n hn
  have hq := List.find?_some (hsome n hn)
  have : ((t.cols.find? (fun p => p.1 == n)).getD ("", CKind.str)).1 = n := by
    simpa using hq
  rw [this]

/-- The key cell of a selected row is the key cell of the source row. -/
theorem tableSelect_row_key (t : ATable R) (names : List String) (key : String)
    (hall : ∀ n ∈ names, n ∈ t.colnames) (hk : key ∈ names)
    (r : List (Cell R)) (hw : r.length = t.cols.length) :
    (names.filterMap (fun n => r.get? (colIdx t n))).getD
        (names.findIdx (fun n => n == key)) Cell.masked
      = r.getD (colIdx t key) Cell.masked := by
  have hsome : ∀ n ∈ names, r.get? (colIdx t n) =
      some (r.getD (colIdx t n) Cell.masked) := by
    intro n hn
    have hb : colIdx t n < r.length := by
      rw [hw]
      exact colIdx_lt_of_mem t n (hall n hn)
    rw [List.get?_eq_getElem?, List.getElem?_eq_getElem hb,
      List.getD_eq_getElem _ _ hb]
  rw [filterMap_eq_map_of_some _ _ _ hsome]
  exact sel_key_cell names (fun n => r.getD (colIdx t n) Cell.masked) key Cell.masked hk

/-- The rows of the (possibly renamed) right table are the caller's
rows. -/
theorem right1_rows (right : ATable R) (kl kr : String) :
    (if kl ≠ kr then renameCol right kr kl else right).rows = right.rows := by
  split <;> rfl

/-- The (possibly renamed) right table keeps its column count. -/
theorem right1_cols_len (right : ATable R) (kl kr : String) :
    (if kl ≠ kr then renameCol right kr kl else right).cols.length =
      right.cols.length := by
  split <;> simp [renameCol]

/-- The join key's index in the (possibly renamed) right table is the
index `key_right` has in the caller's table. -/
theorem right1_key_idx (right : ATable R) (kl kr : String)
    (hkk : kl = kr ∨ kl ∉ right.colnames) :
    colIdx (if kl ≠ kr then renameCol right kr kl else right) kl =
      colIdx right kr := by
  by_cases he : kl = kr
  · subst he
    simp
  · rw [if_pos he]
    have hnew : ∀ p ∈ right.cols, p.1 ≠ kl := by
      rcases hkk with h | h
      · exact absurd h he
      · intro p hp hcon
        exact h (List.mem_map.mpr ⟨p, hp, hcon⟩)
    exact rename_findIdx right.cols kr kl hnew

/-- Under a length bound of one on the match list, each left row
produces exactly one joined row, an extension of itself. -/
theorem join_piece_singleton (lrow : List (Cell R)) (ms : List (List (Cell R)))
    (ri : Nat) (fills : List (Cell R)) (hle : ms.length ≤ 1) :
    ∃ X, (if ms.isEmpty then [lrow ++ fills]
          else ms.map (fun rr => lrow ++ rr.eraseIdx ri)) = [lrow ++ X] := by
  cases ms with
  | nil => exact ⟨fills, rfl⟩
  | cons m tl =>
    have ht : tl = [] := by
      rw [List.length_cons] at hle
      exact List.length_eq_zero.mp (by omega)
    subst ht
    exact ⟨m.eraseIdx ri, rfl⟩

/-- Row count and key-column order of the modelled astropy left join:
when the right key cells are pairwise distinct, the output has one row
per left row and its key column is the key column of the left rows in
key-sorted order. -/
theorem leftJoin_rows_spec (left sel : ATable R) (key : String)
    (husel : sel.rows.Pairwise (fun r1 r2 =>
      cellEqb (r1.getD (colIdx sel key) Cell.masked)
        (r2.getD (colIdx sel key) Cell.masked) = false))
    (hkl : ∀ row ∈ left.rows, colIdx left key < row.length) :
    (leftJoin left sel key).rows.length = left.rows.length ∧
    (leftJoin left sel key).rows.map
        (fun r => r.getD (colIdx left key) Cell.masked) =
      (insSort (fun r1 r2 => cellLeb (r1.getD (colIdx left key) Cell.masked)
          (r2.getD (colIdx left key) Cell.masked)) left.rows).map
        (fun r => r.getD (colIdx left key) Cell.masked) ∧
    ∀ row ∈ (leftJoin left sel key).rows,
      ∃ lrow ∈ left.rows, ∃ X, row = lrow ++ X := by
  have hpiece : ∀ lrow, ∃ X,
      (if (sel.rows.filter (fun rr => cellEqb (rr.getD (colIdx sel key) Cell.masked)
            (lrow.getD (colIdx left key) Cell.masked))).isEmpty
        then [lrow ++ (sel.cols.eraseIdx (colIdx sel key)).map
          (fun _ => (Cell.masked : Cell R))]
        else (sel.rows.filter (fun rr => cellEqb (rr.getD (colIdx sel key) Cell.masked)
            (lrow.getD (colIdx left key) Cell.masked))).map
          (fun rr => lrow ++ rr.eraseIdx (colIdx sel key))) = [lrow ++ X] := by
    intro lrow
    apply join_piece_singleton
    apply filter_length_le_one
    refine husel.imp ?_
    intro a b hab hcon
    have htr := cellEqb_trans_right _ _ _ hcon.1 hcon.2
    rw [htr] at hab
    exact Bool.noConfusion hab
  unfold leftJoin
  dsimp only
  refine ⟨?_, ?_, ?_⟩
  · rw [flatMap_length_of_one]
    · exact insSort_length _ _
    · intro lrow hmem
      obtain ⟨X, hX⟩ := hpiece lrow
      rw [hX]
      rfl
  · rw [map_flatMap_of_key _ _ _ (fun r => r.getD (colIdx left key) Cell.masked)]
    intro lrow hmem
    obtain ⟨X, hX⟩ := hpiece lrow
    rw [hX, List.map_cons, List.map_nil]
    have hlt : colIdx left key < lrow.length :=
      hkl lrow ((mem_insSort _ _ _).mp hmem)
    rw [List.getD_append _ _ _ _ hlt]
  · intro row hrow
    rw [List.mem_flatMap] at hrow
    obtain ⟨lrow, hl, hf⟩ := hrow
    obtain ⟨X, hX⟩ := hpiece lrow
    rw [hX, List.mem_singleton] at hf
    exact ⟨lrow, (mem_insSort _ _ _).mp hl, X, hf⟩

/-- Filling does not disturb row count or a fully populated key
column. -/
theorem fillTable_rows_spec (t : ATable R) (li : Nat)
    (hrows : ∀ row ∈ t.rows, li < row.length ∧ li < t.cols.length ∧
      row.getD li Cell.masked ≠ Cell.masked) :
    (fillTable t).rows.length = t.rows.length ∧
    (fillTable t).rows.map (fun r => r.getD li Cell.masked) =
      t.rows.map (fun r => r.getD li Cell.masked) := by
  constructor
  · simp [fillTable]
  · unfold fillTable
    dsimp only
    rw [List.map_map]
    apply List.map_congr_left
    intro r hr
    obtain ⟨h1, h2, h3⟩ := hrows r hr
    exact fillRow_getD r t.cols li h1 h2 h3

/-- Pairwise transfer along an implication that may use membership. -/
theorem pairwise_imp_mem {α} {P Q : α → α → Prop} (l : List α)
    (h : ∀ a ∈ l, ∀ b ∈ l, P a b → Q a b) (hp : l.Pairwise P) : l.Pairwise Q := by
  induction l with
  | nil => exact List.Pairwise.nil
  | cons a t ih =>
    obtain ⟨ha, ht⟩ := List.pairwise_cons.mp hp
    refine List.pairwise_cons.mpr ⟨?_, ?_⟩
    · intro b hb
      exact h a (List.mem_cons_self a t) b (List.mem_cons_of_mem a hb) (ha b hb)
    · exact ih (fun x hx y hy => h x (List.mem_cons_of_mem a hx) y
        (List.mem_cons_of_mem a hy)) ht

/-- The join key always ends up in the selected-column list. -/
theorem key_mem_cols2 (N0 : List String) (kl : String) :
    kl ∈ (if N0.contains kl then N0 else N0 ++ [kl]) := by
  by_cases hc : N0.contains kl = true
  · rw [if_pos hc]
    simpa using hc
  · rw [if_neg hc]
    exact List.mem_append.mpr (Or.inr (by simp))

/-- C2 amended: when the right table's join-key values are pairwise
distinct (and the inputs are well formed: rows match their column
lists, the keys name existing columns, the left key column holds no
masked cells, and `key_left` does not collide with an existing right
column when the two key names differ), `join_tables` returns a table
with exactly as many rows as `left`, whose rows are `left`'s rows in
join-key-sorted order — the order the underlying astropy join
produces — rather than in `left`'s original order. -/
theorem C2_core (left right : ATable R) (kl kr : String)
    (N0 : List String) (out : ATable R)
    (huniq : right.rows.Pairwise (fun r1 r2 =>
      cellEqb (r1.getD (colIdx right kr) Cell.masked)
        (r2.getD (colIdx right kr) Cell.masked) = false))
    (hwfL : ∀ row ∈ left.rows, row.length = left.cols.length)
    (hkeyL : kl ∈ left.colnames)
    (hmaskL : ∀ row ∈ left.rows, row.getD (colIdx left kl) Cell.masked ≠ Cell.masked)
    (hwfR : ∀ row ∈ right.rows, row.length = right.cols.length)
    (hkk : kl = kr ∨ kl ∉ right.colnames)
    (hout : (tableSelect (if kl ≠ kr then renameCol right kr kl else right)
        (if N0.contains kl then N0 else N0 ++ [kl])).map
        (fun sel => fillTable (leftJoin left sel kl)) = some out) :
    out.rows.length = left.rows.length ∧
    out.rows.map (fun r => r.getD (colIdx left kl) Cell.masked) =
      (insSort (fun r1 r2 => cellLeb (r1.getD (colIdx left kl) Cell.masked)
          (r2.getD (colIdx left kl) Cell.masked)) left.rows).map
        (fun r => r.getD (colIdx left kl) Cell.masked) := by
  rw [Option.map_eq_some'] at hout
  obtain ⟨sel, hsel, hfill⟩ := hout
  obtain ⟨hall, hcols, hrows⟩ := tableSelect_some _ _ _ hsel
  have hR1rows := right1_rows right kl kr
  have hR1len := right1_cols_len right kl kr
  have hR1idx := right1_key_idx right kl kr hkk
  have hkmem := key_mem_cols2 N0 kl
  have hselidx := tableSelect_key_idx _ _ _ hsel kl
  have hklt : ∀ row ∈ left.rows, colIdx left kl < row.length := by
    intro row hrow
    rw [hwfL row hrow]
    exact colIdx_lt_of_mem left kl hkeyL
  have husel : sel.rows.Pairwise (fun r1 r2 =>
      cellEqb (r1.getD (colIdx sel kl) Cell.masked)
        (r2.getD (colIdx sel kl) Cell.masked) = false) := by
    rw [hrows, hR1rows, List.pairwise_map]
    refine pairwise_imp_mem _ ?_ huniq
    intro r1 h1 r2 h2 hpq
    have hw1 : r1.length =
        (if kl ≠ kr then renameCol right kr kl else right).cols.length := by
      rw [hR1len]
      exact hwfR r1 h1
    have hw2 : r2.length =
        (if kl ≠ kr then renameCol right kr kl else right).cols.length := by
      rw [hR1len]
      exact hwfR r2 h2
    rw [hselidx,
      tableSelect_row_key _ _ kl hall hkmem r1 hw1,
      tableSelect_row_key _ _ kl hall hkmem r2 hw2,
      hR1idx]
    exact hpq
  obtain ⟨hjlen, hjmap, hjmem⟩ := leftJoin_rows_spec left sel kl husel hklt
  have hfrows : ∀ row ∈ (leftJoin left sel kl).rows,
      colIdx left kl < row.length ∧
      colIdx left kl < (leftJoin left sel kl).cols.length ∧
      row.getD (colIdx left kl) Cell.masked ≠ Cell.masked := by
    intro row hrow
    obtain ⟨lrow, hl, X, hX⟩ := hjmem row hrow
    subst hX
    have hlt := hklt lrow hl
    refine ⟨?_, ?_, ?_⟩
    · rw [List.length_append]
      omega
    · show colIdx left kl < (left.cols ++ _).length
      rw [List.length_append]
      have := colIdx_lt_of_mem left kl hkeyL
      omega
    · rw [List.getD_append _ _ _ _ hlt]
      exact hmaskL lrow hl
  obtain ⟨hflen, hfmap⟩ := fillTable_rows_spec (leftJoin left sel kl)
    (colIdx left kl) hfrows
  rw [← hfill]
  exact ⟨hflen.trans hjlen, hfmap.trans hjmap⟩

/-- C2 amended: when the right table's join-key values are pairwise
distinct (and the inputs are well formed: rows match their column
lists, the keys name existing columns, the left key column holds no
masked cells, and `key_left` does not collide with an existing right
column when the two key names differ), `join_tables` returns a table
with exactly as many rows as `left`, whose rows are `left`'s rows in
join-key-sorted order — the order the underlying astropy join
produces — rather than in `left`'s original order. -/
theorem C2_amended (left right : ATable R) (kl kr : String)
    (cr : Option (List String)) (out : ATable R)
    (huniq : right.rows.Pairwise (fun r1 r2 =>
      cellEqb (r1.getD (colIdx right kr) Cell.masked)
        (r2.getD (colIdx right kr) Cell.masked) = false))
    (hwfL : ∀ row ∈ left.rows, row.length = left.cols.length)
    (hkeyL : kl ∈ left.colnames)
    (hmaskL : ∀ row ∈ left.rows, row.getD (colIdx left kl) Cell.masked ≠ Cell.masked)
    (hwfR : ∀ row ∈ right.rows, row.length = right.cols.length)
    (hkk : kl = kr ∨ kl ∉ right.colnames)
    (hout : join_tables left right kl kr cr = some out) :
    out.rows.length = left.rows.length ∧
    out.rows.map (fun r => r.getD (colIdx left kl) Cell.masked) =
      (insSort (fun r1 r2 => cellLeb (r1.getD (colIdx left kl) Cell.masked)
          (r2.getD (colIdx left kl) Cell.masked)) left.rows).map
        (fun r => r.getD (colIdx left kl) Cell.masked) := by
  unfold join_tables at hout
  cases cr with
  | none =>
    exact C2_core left right kl kr right.colnames out huniq hwfL hkeyL hmaskL
      hwfR hkk hout
  | some cs =>
    exact C2_core left right kl kr (cs.filter (fun c => right.colnames.contains c))
      out huniq hwfL hkeyL hmaskL hwfR hkk hout

/-- C2 counterexample: the claim's order clause fails.  The right
table's key values are unique, yet joining a left table whose key
column reads B, A produces an output whose key column reads A, B — the
output is in key-sorted order, not in `left`'s row order (hence the
module's explicit `table.sort('Source_Name')` after every call). -/
theorem C2_counterexample :
    C2right.rows.Pairwise (fun r1 r2 =>
      cellEqb (r1.getD (colIdx C2right "k") Cell.masked)
        (r2.getD (colIdx C2right "k") Cell.masked) = false) ∧
    (join_tables C2left C2right "k" "k" none).map
        (fun t => t.rows.map (fun r => r.getD (colIdx C2left "k") Cell.masked)) =
      some [Cell.str "A", Cell.str "B"] ∧
    C2left.rows.map (fun r => r.getD (colIdx C2left "k") Cell.masked) =
      [Cell.str "B", Cell.str "A"] := by
  refine ⟨?_, ?_, ?_⟩ <;> decide

/-- C2 witness: the amended statement on a one-row left table (already
key-sorted), with the concrete joined output. -/
theorem C2_witness :
    C2wout.rows.length = C2wleft.rows.length ∧
    C2wout.rows.map (fun r => r.getD (colIdx C2wleft "k") Cell.masked) =
      (insSort (fun r1 r2 => cellLeb (r1.getD (colIdx C2wleft "k") Cell.masked)
          (r2.getD (colIdx C2wleft "k") Cell.masked)) C2wleft.rows).map
        (fun r => r.getD (colIdx C2wleft "k") Cell.masked) :=
  C2_amended C2wleft C2right "k" "k" none C2wout (by decide) (by decide) (by decide)
    (by decide) (by decide) (Or.inl rfl) (by decide)

end FermipyCatalog
